import Mathlib

/-!
Verification of the mediasearch ingestion/search pipeline.

This file gives a shallow embedding, in Lean 4, of the parts of the
TypeScript source that the specification talks about:

* `packages/domain/src/ports/storage.port.ts` — `computeVersionId`,
  `isSupportedMediaFormat`, `calculateBackoffDelay`, `MAX_RETRY_ATTEMPTS`;
* the PostgreSQL database adapter (`PostgresDatabaseAdapter`) — asset /
  version / segment / embedding mutations and the SQL search functions
  of `db/migrations/001_initial_schema.sql`;
* the local queue adapter (`LocalQueueAdapter`, BullMQ-backed) — enqueue
  with jobId-based deduplication, delayed enqueue, ack, move-to-DLQ;
* `OrchestratorService` — `handleJobError`, `isRetryableError`,
  `determineTriageState`, `getRecommendedAction`, and the observable
  step sequence of `publishVersion`;
* `IngestService` — `handleObjectCreated`, `handleObjectRemoved`;
* `TriageService.retryAsset`;
* `VASTDatabaseAdapter` — `searchKeyword` and `searchHybrid`.

Numbers are modelled with `Nat`/`Int`/`ℚ` (the JavaScript arithmetic in
`computeVersionId` is 32-bit, made explicit below; scores and jitter are
exact rationals).  Asynchronous adapter calls are modelled as pure state
transformers; where the source issues each SQL statement on its own
auto-committed connection, the model exposes the state after every
statement.
-/

set_option maxRecDepth 4000

namespace MediaSearch

/-! ### Basic string helpers (JavaScript semantics) -/

/-- Does `hay` start with `pat`?  (List-level helper for substring search.) -/
def listStartsWith : List Char → List Char → Bool
  | _, [] => true
  | [], _ :: _ => false
  | a :: as, b :: bs => decide (a = b) && listStartsWith as bs

/-- Naive substring containment on char lists; models
`String.prototype.includes` from JavaScript. -/
def listHasSub (hay pat : List Char) : Bool :=
  match hay with
  | [] => pat.isEmpty
  | _ :: t => listStartsWith hay pat || listHasSub t pat

/-- `strIncludes s pat` models the JavaScript expression `s.includes(pat)`. -/
def strIncludes (s pat : String) : Bool :=
  listHasSub s.data pat.data

/-- ASCII lower-casing of one character (what `toLowerCase` does on the
ASCII inputs used by this code base). -/
def asciiToLower (c : Char) : Char :=
  if 65 ≤ c.toNat ∧ c.toNat ≤ 90 then Char.ofNat (c.toNat + 32) else c

/-- ASCII upper-casing of one character. -/
def asciiToUpper (c : Char) : Char :=
  if 97 ≤ c.toNat ∧ c.toNat ≤ 122 then Char.ofNat (c.toNat - 32) else c

/-- JavaScript `s.toLowerCase()` (ASCII range). -/
def jsToLower (s : String) : String :=
  String.mk (s.data.map asciiToLower)

/-- JavaScript `s.toUpperCase()` (ASCII range). -/
def jsToUpper (s : String) : String :=
  String.mk (s.data.map asciiToUpper)

/-- Worker for `jsSplit`: accumulate the current field (reversed) while
scanning. -/
def jsSplitGo (sep : Char) : List Char → List Char → List (List Char)
  | [], cur => [cur.reverse]
  | c :: rest, cur =>
      if c = sep then cur.reverse :: jsSplitGo sep rest []
      else jsSplitGo sep rest (c :: cur)

/-- JavaScript `s.split(sep)` for a one-character separator: fields in
order, empty fields kept, always at least one field. -/
def jsSplit (s : String) (sep : Char) : List String :=
  (jsSplitGo sep s.data []).map (fun l => String.mk l)

/-- Worker for SQL `LIKE`; the fuel argument only forces structural
termination and is always called with more fuel than the combined length
of pattern and text, so every match path below is reached before the
fuel runs out. -/
def likeMatchGo : Nat → List Char → List Char → Bool
  | 0, _, _ => false
  | fuel + 1, pat, t =>
    match pat, t with
    | [], [] => true
    | [], _ :: _ => false
    | '%' :: ps, [] => likeMatchGo fuel ps []
    | '%' :: ps, c :: ts =>
        likeMatchGo fuel ps (c :: ts) || likeMatchGo fuel ('%' :: ps) ts
    | '_' :: _, [] => false
    | '_' :: ps, _ :: ts => likeMatchGo fuel ps ts
    | _ :: _, [] => false
    | p :: ps, c :: ts => decide (p = c) && likeMatchGo fuel ps ts

/-- SQL `LIKE` pattern matching: `%` matches any sequence, `_` any single
character, every other character matches itself.  Used by the VAST adapter's
keyword search (`text LIKE '<query>'`). -/
def likeMatch (pat t : List Char) : Bool :=
  likeMatchGo (pat.length + t.length + 1) pat t

/-! ### `storage.port.ts`: version ids, media formats -/

/-- JavaScript `ToInt32`: reduce an integer to the signed 32-bit range. -/
def toInt32 (n : Int) : Int :=
  let m := n % 4294967296
  if m < 2147483648 then m else m - 4294967296

/-- One step of the string hash loop in `computeVersionId`
(`hash = ((hash << 5) - hash) + char; hash = hash & hash`).  The shift
wraps in 32 bits; the final `& hash` truncates back to 32 bits. -/
def jsHashStep (h : Int) (c : Nat) : Int :=
  toInt32 (toInt32 (h * 32) - h + c)

/-- The hash loop of `computeVersionId` over the UTF-16 code units of `s`
(all inputs used here are ASCII, where code unit = code point). -/
def jsStringHash (s : String) : Int :=
  s.data.foldl (fun h c => jsHashStep h c.toNat) 0

/-- Digit character for JavaScript `Number.prototype.toString(36)`:
`0`–`9` then `a`–`z`. -/
def base36Digit (d : Nat) : Char :=
  if d < 10 then Char.ofNat (48 + d) else Char.ofNat (87 + d)

/-- Base-36 digits of `n`, most significant first (empty for `0`).  The
fuel argument only forces structural termination; division by 36
strictly shrinks `n`, so fuel `n` is always enough. -/
def natToBase36Go : Nat → Nat → List Char
  | 0, _ => []
  | fuel + 1, n =>
      if n = 0 then [] else natToBase36Go fuel (n / 36) ++ [base36Digit (n % 36)]

/-- JavaScript `n.toString(36)` for a non-negative integer `n`. -/
def natToBase36 (n : Nat) : String :=
  if n = 0 then "0" else String.mk (natToBase36Go (n + 1) n)

/-- `computeVersionId` from `storage.port.ts`.  The source builds
`"${etag}:${size}:${mtime.getTime()}"`, hashes it with the 32-bit string
hash, and returns
`` `v_${Math.abs(hash).toString(36)}_${Date.now().toString(36)}` ``.
`mtimeMs` is `mtime.getTime()` and `nowMs` is the value of `Date.now()`
at the moment of the call — the source really does append the current
wall-clock time. -/
def computeVersionId (etag : String) (size : Nat) (mtimeMs : Nat) (nowMs : Nat) : String :=
  let data := etag ++ ":" ++ toString size ++ ":" ++ toString mtimeMs
  "v_" ++ natToBase36 (jsStringHash data).natAbs ++ "_" ++ natToBase36 nowMs

/-- `SUPPORTED_FORMATS` from `storage.port.ts` (audio then video). -/
def SUPPORTED_FORMATS : List String :=
  ["wav", "mp3", "aac", "flac", "mp4", "mov", "mxf"]

/-- `isSupportedMediaFormat` from `storage.port.ts`:
`filename.split('.').pop()?.toLowerCase()`, then membership in
`SUPPORTED_FORMATS`; an empty extension string is falsy and yields
`false`. -/
def isSupportedMediaFormat (filename : String) : Bool :=
  let ext := jsToLower ((jsSplit filename '.').getLastD "")
  if ext = "" then false else SUPPORTED_FORMATS.contains ext

/-! ### `queue.port.ts`: backoff -/

/-- `MAX_RETRY_ATTEMPTS` from `queue.port.ts`. -/
def MAX_RETRY_ATTEMPTS : Nat := 5

/-- `calculateBackoffDelay` from `queue.port.ts`.  `rand` is the value
returned by `Math.random()` (a number in `[0, 1)`), passed explicitly so
the function is a pure one:
delay = `Math.floor(cappedDelay + cappedDelay * 0.25 * (rand * 2 - 1))`
with `cappedDelay = min(baseDelayMs * 2 ^ attempt, maxDelayMs)`. -/
def calculateBackoffDelay (attempt : Nat) (baseDelayMs maxDelayMs : Nat) (rand : ℚ) : Int :=
  let exponentialDelay : ℚ := (baseDelayMs : ℚ) * 2 ^ attempt
  let cappedDelay : ℚ := min exponentialDelay (maxDelayMs : ℚ)
  let jitter : ℚ := cappedDelay * (1 / 4) * (rand * 2 - 1)
  Int.floor (cappedDelay + jitter)

/-! ### Domain entities (`packages/domain/src/types`) -/

/-- `AssetStatus` enum (`entities.ts`). -/
inductive AssetStatus where
  | INGESTED | TRANSCRIBING | TRANSCRIBED | INDEXED | INDEX_PARTIAL
  | DELETED | QUARANTINED | SKIPPED | PENDING_RETRY | FAILED
  | BUILDING | READY_TO_PUBLISH | PUBLISHED | ARCHIVED
deriving DecidableEq, Repr

/-- `Visibility` enum (`entities.ts`). -/
inductive Visibility where
  | STAGING | ACTIVE | ARCHIVED | SOFT_DELETED
deriving DecidableEq, Repr

/-- `TriageState` enum (`entities.ts`). -/
inductive TriageState where
  | NEEDS_MEDIA_FIX | NEEDS_ENGINE_TUNING | QUARANTINED
deriving DecidableEq, Repr

/-- `EnginePolicy` (`entities.ts`); the engine and execution mode are kept
as their runtime string values. -/
structure EnginePolicy where
  engine : String
  diarization_enabled : Bool
  execution_mode : String
  compute_threshold_seconds : Nat
  force_chunking_strategy : Option String
deriving DecidableEq, Repr

/-- `DEFAULT_ENGINE_POLICY` (`entities.ts`). -/
def DEFAULT_ENGINE_POLICY : EnginePolicy :=
  { engine := "nvidia_nims"
    diarization_enabled := true
    execution_mode := "gpu"
    compute_threshold_seconds := 300
    force_chunking_strategy := none }

/-- `MediaAsset` (`entities.ts`), restricted to the fields the modelled
operations read or write. -/
structure MediaAsset where
  asset_id : String
  lineage_id : String
  bucket : String
  object_key : String
  current_version_id : Option String
  status : AssetStatus
  triage_state : Option TriageState
  recommended_action : Option String
  transcription_engine : String
  last_error : Option String
  attempt : Nat
  file_size : Nat
  content_type : String
  etag : String
  tombstone : Bool
deriving DecidableEq, Repr

/-- `AssetVersion` (`entities.ts`). -/
structure AssetVersion where
  version_id : String
  asset_id : String
  status : AssetStatus
  publish_state : Visibility
  etag : String
  file_size : Nat
deriving DecidableEq, Repr

/-- `TranscriptSegment` (`entities.ts`); `created_at` is a millisecond
timestamp. -/
structure TranscriptSegment where
  segment_id : String
  asset_id : String
  version_id : String
  start_ms : Nat
  end_ms : Nat
  text : String
  speaker : Option String
  confidence : ℚ
  visibility : Visibility
  created_at : Nat
deriving DecidableEq, Repr

/-- `TranscriptEmbedding` (`entities.ts`). -/
structure TranscriptEmbedding where
  embedding_id : String
  asset_id : String
  version_id : String
  segment_id : String
  embedding : List ℚ
  model : String
  dimension : Nat
  visibility : Visibility
deriving DecidableEq, Repr

/-- `TranscriptionJob` (`entities.ts`). -/
structure TranscriptionJob where
  job_id : String
  asset_id : String
  version_id : String
  engine_policy : EnginePolicy
  attempt : Nat
  idempotency_key : String
deriving DecidableEq, Repr

/-! ### Database state and the PostgreSQL adapter's mutations

Each method of `PostgresDatabaseAdapter` is one SQL statement over the
tables `media_assets`, `asset_versions`, `transcript_segments`,
`transcript_embeddings`; the tables are modelled as lists of rows. -/

/-- The database tables touched by the modelled operations. -/
structure DBState where
  assets : List MediaAsset
  versions : List AssetVersion
  segments : List TranscriptSegment
  embeddings : List TranscriptEmbedding
deriving DecidableEq, Repr

/-- The empty database. -/
def DBState.empty : DBState :=
  { assets := [], versions := [], segments := [], embeddings := [] }

/-- `getAsset`: `SELECT * FROM media_assets WHERE asset_id = $1`, first row. -/
def getAsset (db : DBState) (assetId : String) : Option MediaAsset :=
  db.assets.find? (fun a => a.asset_id == assetId)

/-- `getAssetByKey`: lookup by `(bucket, object_key)`. -/
def getAssetByKey (db : DBState) (bucket objectKey : String) : Option MediaAsset :=
  db.assets.find? (fun a => a.bucket == bucket && a.object_key == objectKey)

/-- `upsertAsset`: `INSERT ... ON CONFLICT (bucket, object_key) DO UPDATE`.
On conflict the listed columns are overwritten; `asset_id`, `lineage_id`
and `ingest_time` keep their stored values. -/
def upsertAsset (db : DBState) (a : MediaAsset) : DBState :=
  if db.assets.any (fun x => x.bucket == a.bucket && x.object_key == a.object_key) then
    { db with assets := db.assets.map (fun x =>
        if x.bucket == a.bucket && x.object_key == a.object_key then
          { x with current_version_id := a.current_version_id
                   status := a.status
                   triage_state := a.triage_state
                   recommended_action := a.recommended_action
                   transcription_engine := a.transcription_engine
                   last_error := a.last_error
                   attempt := a.attempt
                   file_size := a.file_size
                   content_type := a.content_type
                   etag := a.etag
                   tombstone := a.tombstone }
        else x) }
  else { db with assets := db.assets ++ [a] }

/-- The optional columns of `updateAssetStatus`.  Each outer `Option` is
"was the option passed at all" (the adapter checks `!== undefined`); the
inner value is the column value, which may itself be SQL `NULL`. -/
structure StatusUpdateOptions where
  triageState : Option (Option TriageState)
  lastError : Option (Option String)
  attempt : Option Nat
  recommendedAction : Option (Option String)
deriving DecidableEq, Repr

/-- `updateAssetStatus` options object with no optional field set. -/
def StatusUpdateOptions.none : StatusUpdateOptions :=
  { triageState := Option.none, lastError := Option.none
    attempt := Option.none, recommendedAction := Option.none }

/-- Apply one `updateAssetStatus` row update. -/
def applyStatusUpdate (status : AssetStatus) (opts : StatusUpdateOptions)
    (a : MediaAsset) : MediaAsset :=
  { a with status := status
           triage_state := opts.triageState.getD a.triage_state
           last_error := opts.lastError.getD a.last_error
           attempt := opts.attempt.getD a.attempt
           recommended_action := opts.recommendedAction.getD a.recommended_action }

/-- `updateAssetStatus`: `UPDATE media_assets SET ... WHERE asset_id = $1`. -/
def updateAssetStatus (db : DBState) (assetId : String) (status : AssetStatus)
    (opts : StatusUpdateOptions) : DBState :=
  { db with assets := db.assets.map (fun a =>
      if a.asset_id == assetId then applyStatusUpdate status opts a else a) }

/-- `tombstoneAsset`: `UPDATE media_assets SET tombstone = true,
status = 'DELETED', current_version_id = NULL WHERE asset_id = $1`. -/
def tombstoneAsset (db : DBState) (assetId : String) : DBState :=
  { db with assets := db.assets.map (fun a =>
      if a.asset_id == assetId then
        { a with tombstone := true
                 status := AssetStatus.DELETED
                 current_version_id := none }
      else a) }

/-- `setCurrentVersion`: `UPDATE media_assets SET current_version_id = $2
WHERE asset_id = $1`. -/
def setCurrentVersion (db : DBState) (assetId versionId : String) : DBState :=
  { db with assets := db.assets.map (fun a =>
      if a.asset_id == assetId then { a with current_version_id := some versionId }
      else a) }

/-- `createVersion`: plain `INSERT`; a duplicate `version_id` violates the
primary key and errors. -/
def createVersion (db : DBState) (v : AssetVersion) : Except String DBState :=
  if db.versions.any (fun x => x.version_id == v.version_id) then
    Except.error "duplicate version_id"
  else Except.ok { db with versions := db.versions ++ [v] }

/-- `getVersion`: `SELECT * FROM asset_versions WHERE version_id = $1`. -/
def getVersion (db : DBState) (versionId : String) : Option AssetVersion :=
  db.versions.find? (fun v => v.version_id == versionId)

/-- `updateSegmentVisibility`: `UPDATE transcript_segments SET visibility
= $3 WHERE asset_id = $1 AND version_id = $2`. -/
def updateSegmentVisibility (db : DBState) (assetId versionId : String)
    (vis : Visibility) : DBState :=
  { db with segments := db.segments.map (fun s =>
      if s.asset_id == assetId && s.version_id == versionId then
        { s with visibility := vis }
      else s) }

/-- `updateEmbeddingVisibility`: same shape over `transcript_embeddings`. -/
def updateEmbeddingVisibility (db : DBState) (assetId versionId : String)
    (vis : Visibility) : DBState :=
  { db with embeddings := db.embeddings.map (fun e =>
      if e.asset_id == assetId && e.version_id == versionId then
        { e with visibility := vis }
      else e) }

/-- `softDeleteSegments`: `UPDATE transcript_segments SET visibility =
'SOFT_DELETED' WHERE asset_id = $1`. -/
def softDeleteSegments (db : DBState) (assetId : String) : DBState :=
  { db with segments := db.segments.map (fun s =>
      if s.asset_id == assetId then { s with visibility := Visibility.SOFT_DELETED }
      else s) }

/-- `softDeleteEmbeddings`: same over `transcript_embeddings`. -/
def softDeleteEmbeddings (db : DBState) (assetId : String) : DBState :=
  { db with embeddings := db.embeddings.map (fun e =>
      if e.asset_id == assetId then { e with visibility := Visibility.SOFT_DELETED }
      else e) }

/-! ### Local queue adapter (`LocalQueueAdapter`, BullMQ-backed)

`enqueueJob` calls `queue.add(job.job_id, job, { jobId: job.job_id, ... })`.
BullMQ deduplicates on the explicit `jobId` option: adding a job whose id
already exists in the queue is ignored.  `moveToDLQ` adds the job to the
DLQ queue under id `dlq_<job_id>` and removes it from the main queue. -/

/-- A parked DLQ job on the local queue. -/
structure DLQEntry where
  dlq_job_id : String
  job : TranscriptionJob
  error_message : String
deriving DecidableEq, Repr

/-- Local queue state: the main queue holds `(job, delayMs)` pairs in
insertion order, the DLQ holds parked jobs. -/
structure LocalQueue where
  main : List (TranscriptionJob × Int)
  dlq : List DLQEntry
deriving DecidableEq, Repr

/-- The empty queue. -/
def LocalQueue.empty : LocalQueue := { main := [], dlq := [] }

/-- `enqueueJob`: BullMQ `add` with `jobId = job.job_id`; a duplicate id is
a no-op. -/
def LocalQueue.enqueueJob (q : LocalQueue) (job : TranscriptionJob) : LocalQueue :=
  if q.main.any (fun p => p.1.job_id == job.job_id) then q
  else { q with main := q.main ++ [(job, 0)] }

/-- `enqueueJobWithDelay`: as `enqueueJob` but with a `delay` option. -/
def LocalQueue.enqueueJobWithDelay (q : LocalQueue) (job : TranscriptionJob)
    (delayMs : Int) : LocalQueue :=
  if q.main.any (fun p => p.1.job_id == job.job_id) then q
  else { q with main := q.main ++ [(job, delayMs)] }

/-- `ackJob`: look the job up by id and remove it. -/
def LocalQueue.ackJob (q : LocalQueue) (jobId : String) : LocalQueue :=
  { q with main := q.main.filter (fun p => !(p.1.job_id == jobId)) }

/-- `moveToDLQ`: add to the DLQ queue under id `dlq_<job_id>` (BullMQ
dedup applies there too), then remove the job from the main queue. -/
def LocalQueue.moveToDLQ (q : LocalQueue) (job : TranscriptionJob)
    (errorMessage : String) : LocalQueue :=
  let dlqId := "dlq_" ++ job.job_id
  let dlq' :=
    if q.dlq.any (fun e => e.dlq_job_id == dlqId) then q.dlq
    else q.dlq ++ [{ dlq_job_id := dlqId, job := job, error_message := errorMessage }]
  { main := q.main.filter (fun p => !(p.1.job_id == job.job_id)), dlq := dlq' }

/-! ### Orchestrator (`services/orchestrator/src/service.ts`) -/

/-- `OrchestratorService.isRetryableError`: substring classification over the
lower-cased error message; the final branch defaults to retryable. -/
def isRetryableError (message : String) : Bool :=
  let m := jsToLower message
  if strIncludes m "codec" || strIncludes m "corrupt" ||
      strIncludes m "invalid format" || strIncludes m "unsupported" then
    false
  else if strIncludes m "timeout" || strIncludes m "network" ||
      strIncludes m "connection" || strIncludes m "rate limit" ||
      strIncludes m "busy" || strIncludes m "unavailable" then
    true
  else
    true

/-- `OrchestratorService.determineTriageState`. -/
def determineTriageState (message : String) : TriageState :=
  let m := jsToLower message
  if strIncludes m "codec" || strIncludes m "corrupt" ||
      strIncludes m "invalid format" then
    TriageState.NEEDS_MEDIA_FIX
  else if strIncludes m "engine" || strIncludes m "model" ||
      strIncludes m "transcription" then
    TriageState.NEEDS_ENGINE_TUNING
  else
    TriageState.QUARANTINED

/-- `OrchestratorService.getRecommendedAction`. -/
def getRecommendedAction (state : TriageState) : String :=
  match state with
  | TriageState.NEEDS_MEDIA_FIX =>
      "Re-encode media file with supported codec or fix corruption"
  | TriageState.NEEDS_ENGINE_TUNING =>
      "Review ASR engine configuration or try alternative engine"
  | TriageState.QUARANTINED => "Manual investigation required"

/-- `OrchestratorService.handleJobError`.  `freshJobId` is the
`randomUUID()` drawn for a retry job, `rand` the `Math.random()` sample
inside `calculateBackoffDelay`, `nowMs` the wall clock (used only for
`scheduled_at`, which the model does not store).  Returns the database
and queue after the handler completes. -/
def handleJobError (db : DBState) (q : LocalQueue) (job : TranscriptionJob)
    (errorMessage : String) (freshJobId : String) (rand : ℚ) :
    DBState × LocalQueue :=
  let isRetryable := isRetryableError errorMessage
  let newAttempt := job.attempt + 1
  if !isRetryable || decide (MAX_RETRY_ATTEMPTS ≤ newAttempt) then
    let triageState := determineTriageState errorMessage
    let recommendedAction := getRecommendedAction triageState
    let db' := updateAssetStatus db job.asset_id AssetStatus.QUARANTINED
      { triageState := some (some triageState)
        lastError := some (some errorMessage)
        attempt := some newAttempt
        recommendedAction := some (some recommendedAction) }
    (db', q.moveToDLQ job errorMessage)
  else
    let delay := calculateBackoffDelay newAttempt 1000 300000 rand
    let retryJob : TranscriptionJob :=
      { job with job_id := freshJobId
                 attempt := newAttempt
                 idempotency_key :=
                   job.asset_id ++ ":" ++ job.version_id ++ ":" ++ toString newAttempt }
    let db' := updateAssetStatus db job.asset_id AssetStatus.PENDING_RETRY
      { triageState := none
        lastError := some (some errorMessage)
        attempt := some newAttempt
        recommendedAction := none }
    (db', ((q.enqueueJobWithDelay retryJob delay).ackJob job.job_id))

/-- The sequence of observable database states produced by
`OrchestratorService.publishVersion`.

The method wraps its body in `tx.execute`, but the transaction `BEGIN` /
`COMMIT` run on a client checked out of the connection pool, while every
mutation inside the callback goes through `this.pool.query`, i.e. on
*other* pool connections that auto-commit each statement.  So each
statement's effect is observable as soon as it runs; the list below is
the state after every statement, starting with the initial state.
The archive branch runs whenever `previousVersionId` is truthy (non-null
and non-empty), with no distinctness check against the new version. -/
def publishVersionObservables (db : DBState) (assetId versionId : String) :
    List DBState :=
  let prev := (getAsset db assetId).bind (fun a => a.current_version_id)
  let archSteps : List (DBState → DBState) :=
    match prev with
    | some pv =>
        if pv = "" then []
        else
          [fun d => updateSegmentVisibility d assetId pv Visibility.ARCHIVED,
           fun d => updateEmbeddingVisibility d assetId pv Visibility.ARCHIVED]
    | none => []
  let steps : List (DBState → DBState) := archSteps ++
    [fun d => updateSegmentVisibility d assetId versionId Visibility.ACTIVE,
     fun d => updateEmbeddingVisibility d assetId versionId Visibility.ACTIVE,
     fun d => setCurrentVersion d assetId versionId,
     fun d => updateAssetStatus d assetId AssetStatus.INDEXED StatusUpdateOptions.none]
  steps.foldl (fun acc f => acc ++ [f (acc.getLastD db)]) [db]

/-- `publishVersion`'s final state. -/
def publishVersion (db : DBState) (assetId versionId : String) : DBState :=
  (publishVersionObservables db assetId versionId).getLastD db

/-! ### Ingest service (`IngestService`) -/

/-- The object metadata returned by `storage.getObjectMetadata`. -/
structure ObjectMetadata where
  etag : String
  size : Nat
  contentType : String
  lastModifiedMs : Nat
deriving DecidableEq, Repr

/-- `IngestService.handleObjectCreated`.  Parameters that the source draws
from the environment are passed explicitly: `meta` is the store's
metadata answer, `newAssetId` / `newLineageId` / `newJobId` the
`randomUUID()` values, `nowMs` the `Date.now()` inside
`computeVersionId`, and `engine` the `selectEngine()` result.  Returns
the updated database and queue; the unsupported-extension and
existing-version branches return the inputs unchanged. -/
def handleObjectCreated (db : DBState) (q : LocalQueue) (bucket objectKey : String)
    (etagOpt : Option String) (sizeOpt : Option Nat) (meta : ObjectMetadata)
    (newAssetId newLineageId newJobId : String) (nowMs : Nat) (engine : String) :
    Except String (DBState × LocalQueue) :=
  if isSupportedMediaFormat objectKey = false then Except.ok (db, q)
  else
    let etag := etagOpt.getD meta.etag
    let size := sizeOpt.getD meta.size
    let versionId := computeVersionId etag size meta.lastModifiedMs nowMs
    let mkVersionAndJob := fun (db : DBState) (assetId jobEngine : String) =>
      let version : AssetVersion :=
        { version_id := versionId
          asset_id := assetId
          status := AssetStatus.INGESTED
          publish_state := Visibility.STAGING
          etag := etag
          file_size := size }
      match createVersion db version with
      | Except.error e => Except.error e
      | Except.ok db' =>
          let job : TranscriptionJob :=
            { job_id := newJobId
              asset_id := assetId
              version_id := versionId
              engine_policy := { DEFAULT_ENGINE_POLICY with engine := jobEngine }
              attempt := 0
              idempotency_key := assetId ++ ":" ++ versionId ++ ":0" }
          Except.ok (db', q.enqueueJob job)
    match getAssetByKey db bucket objectKey with
    | some asset =>
        if (getVersion db versionId).isSome then Except.ok (db, q)
        else mkVersionAndJob db asset.asset_id asset.transcription_engine
    | none =>
        let asset : MediaAsset :=
          { asset_id := newAssetId
            lineage_id := newLineageId
            bucket := bucket
            object_key := objectKey
            current_version_id := none
            status := AssetStatus.INGESTED
            triage_state := none
            recommended_action := none
            transcription_engine := engine
            last_error := none
            attempt := 0
            file_size := size
            content_type := meta.contentType
            etag := etag
            tombstone := false }
        let db' := upsertAsset db asset
        mkVersionAndJob db' asset.asset_id engine

/-- The sequence of observable database states produced by
`IngestService.handleObjectRemoved`: the three mutations
(`tombstoneAsset`, `softDeleteSegments`, `softDeleteEmbeddings`) are
issued as three separate awaited adapter calls with no enclosing
transaction, so the state after each one is observable.  When no asset
matches the key the handler logs and returns. -/
def handleObjectRemovedTrace (db : DBState) (bucket objectKey : String) :
    List DBState :=
  match getAssetByKey db bucket objectKey with
  | none => [db]
  | some asset =>
      let d1 := tombstoneAsset db asset.asset_id
      let d2 := softDeleteSegments d1 asset.asset_id
      let d3 := softDeleteEmbeddings d2 asset.asset_id
      [db, d1, d2, d3]

/-- `handleObjectRemoved`'s final state: tombstone the asset, then
soft-delete its segments, then its embeddings (the last element of
`handleObjectRemovedTrace`). -/
def handleObjectRemoved (db : DBState) (bucket objectKey : String) : DBState :=
  match getAssetByKey db bucket objectKey with
  | none => db
  | some asset =>
      softDeleteEmbeddings
        (softDeleteSegments (tombstoneAsset db asset.asset_id) asset.asset_id)
        asset.asset_id

/-! ### Triage service (`TriageService.retryAsset`) -/

/-- The three throw sites of `retryAsset`, in source order. -/
inductive TriageError where
  | notFound | notQuarantined | noVersion
deriving DecidableEq, Repr

/-- `TriageService.retryAsset`.  `newJobId` is the `randomUUID()` for the
fresh job and `nowMs` the `Date.now()` used in the idempotency-key
suffix.  All three guards throw before any mutation; on success the
asset is reset to `PENDING_RETRY` (triage state, last error cleared,
attempt 0) and a fresh job for the asset's current version is enqueued. -/
def retryAsset (db : DBState) (q : LocalQueue) (assetId : String)
    (engineOverride : Option String) (newJobId : String) (nowMs : Nat) :
    Except TriageError (DBState × LocalQueue) :=
  match getAsset db assetId with
  | none => Except.error TriageError.notFound
  | some asset =>
      if asset.status ≠ AssetStatus.QUARANTINED then
        Except.error TriageError.notQuarantined
      else
        let engine :=
          match engineOverride with
          | some e => jsToUpper e
          | none => asset.transcription_engine
        match asset.current_version_id with
        | none => Except.error TriageError.noVersion
        | some versionId =>
            let job : TranscriptionJob :=
              { job_id := newJobId
                asset_id := assetId
                version_id := versionId
                engine_policy := { DEFAULT_ENGINE_POLICY with engine := engine }
                attempt := 0
                idempotency_key :=
                  assetId ++ ":" ++ versionId ++ ":retry:" ++ toString nowMs }
            let db' := updateAssetStatus db assetId AssetStatus.PENDING_RETRY
              { triageState := some none
                lastError := some none
                attempt := some 0
                recommendedAction := none }
            Except.ok (db', q.enqueueJob job)

/-! ### Stable sorting (JavaScript `Array.prototype.sort` is stable)

`List.insertionSort` is the stable sort; sorting by a comparator
`(a, b) => key(b) - key(a)` is the stable sort by the total preorder
"key descending", which is what `descBy` captures. -/

/-- "Key descending" ordering relation. -/
def descBy {α : Type} (f : α → ℚ) (a b : α) : Prop := f b ≤ f a

instance {α : Type} (f : α → ℚ) : DecidableRel (descBy f) :=
  fun a b => inferInstanceAs (Decidable (f b ≤ f a))

instance {α : Type} (f : α → ℚ) : IsTotal α (descBy f) :=
  ⟨fun a b => le_total (f b) (f a)⟩

instance {α : Type} (f : α → ℚ) : IsTrans α (descBy f) :=
  ⟨fun _ _ _ h1 h2 => le_trans h2 h1⟩

/-- "Key ascending" ordering relation (vector distance ordering). -/
def ascBy {α : Type} (f : α → ℚ) (a b : α) : Prop := f a ≤ f b

instance {α : Type} (f : α → ℚ) : DecidableRel (ascBy f) :=
  fun a b => inferInstanceAs (Decidable (f a ≤ f b))

/-! ### VAST adapter search (`VASTDatabaseAdapter`) -/

/-- `SearchHit.match_type` values used by the VAST adapter. -/
inductive MatchType where
  | keyword | semantic | hybrid
deriving DecidableEq, Repr

/-- The hit shape built by `VASTDatabaseAdapter.searchKeyword` /
`searchSemantic` / `searchHybrid`. -/
structure VASTHit where
  segment_id : String
  asset_id : String
  version_id : String
  text : String
  start_ms : Nat
  end_ms : Nat
  speaker : String
  confidence : ℚ
  score : ℚ
  match_type : MatchType
deriving DecidableEq, Repr

/-- Row-to-hit mapping of `VASTDatabaseAdapter.searchKeyword`:
`speaker: row.speaker || ''`, `score: 1.0`, `match_type: 'keyword'`. -/
def vastKeywordRowToHit (s : TranscriptSegment) : VASTHit :=
  { segment_id := s.segment_id
    asset_id := s.asset_id
    version_id := s.version_id
    text := s.text
    start_ms := s.start_ms
    end_ms := s.end_ms
    speaker := s.speaker.getD ""
    confidence := s.confidence
    score := 1
    match_type := MatchType.keyword }

/-- `VASTDatabaseAdapter.searchKeyword`: the SQL it sends is

`SELECT * FROM transcript_segments WHERE visibility = 'ACTIVE' AND text
LIKE '<query>' ORDER BY created_at DESC LIMIT <limit || 100>`.

The only filter is `visibility = 'ACTIVE'`: there is no join against
`media_assets`, hence no `version_id = current_version_id` binding and
no tombstone check. -/
def vastSearchKeyword (db : DBState) (queryText : String) (limit : Nat) :
    List VASTHit :=
  let rows := db.segments.filter (fun s =>
    decide (s.visibility = Visibility.ACTIVE) && likeMatch queryText.data s.text.data)
  let ordered := List.insertionSort (descBy (fun s => (s.created_at : ℚ))) rows
  (ordered.take (if limit = 0 then 100 else limit)).map vastKeywordRowToHit

/-- Keyword pass of `VASTDatabaseAdapter.searchHybrid`: insert into the
segment-id-keyed map; an absent segment is added with its score
*overwritten* to `keywordWeight`, a present one gets `keywordWeight`
added. -/
def addKeywordHit (kW : ℚ) (acc : List VASTHit) (h : VASTHit) : List VASTHit :=
  if acc.any (fun e => e.segment_id == h.segment_id) then
    acc.map (fun e =>
      if e.segment_id == h.segment_id then { e with score := e.score + kW } else e)
  else acc ++ [{ h with score := kW }]

/-- Semantic pass of `VASTDatabaseAdapter.searchHybrid`: a present segment
gets `hit.score * semanticWeight` added and is relabelled `hybrid`; an
absent one is added with score `hit.score * semanticWeight` and is also
labelled `hybrid` (the `else` branch sets `match_type = 'hybrid'` too). -/
def addSemanticHit (sW : ℚ) (acc : List VASTHit) (h : VASTHit) : List VASTHit :=
  if acc.any (fun e => e.segment_id == h.segment_id) then
    acc.map (fun e =>
      if e.segment_id == h.segment_id then
        { e with score := e.score + h.score * sW, match_type := MatchType.hybrid }
      else e)
  else acc ++ [{ h with score := h.score * sW, match_type := MatchType.hybrid }]

/-- The fusion map of `VASTDatabaseAdapter.searchHybrid` in insertion
order: keyword hits first, then the semantic hits not already present. -/
def hybridFuse (kW sW : ℚ) (kw sem : List VASTHit) : List VASTHit :=
  sem.foldl (addSemanticHit sW) (kw.foldl (addKeywordHit kW) [])

/-- `VASTDatabaseAdapter.searchHybrid` after the two inner searches have
returned `kw` and `sem`: fuse, sort by combined score descending
(`Array.prototype.sort` is stable), truncate to `limit || 100`. -/
def vastSearchHybrid (kW sW : ℚ) (limit : Nat) (kw sem : List VASTHit) :
    List VASTHit :=
  (List.insertionSort (descBy (fun h => h.score)) (hybridFuse kW sW kw sem)).take
    (if limit = 0 then 100 else limit)

/-- Closed-form description of `hybridFuse` on one entry coming from the
keyword list: its score becomes `kW` plus, when the same segment also
appears in the semantic list, that hit's score times `sW`, in which case
it is relabelled `hybrid`. -/
def semScoreUpdate (sW : ℚ) (sem : List VASTHit) (e : VASTHit) : VASTHit :=
  match sem.find? (fun s => s.segment_id == e.segment_id) with
  | some s => { e with score := e.score + s.score * sW, match_type := MatchType.hybrid }
  | none => e

/-- Closed-form description of a semantic-only entry of `hybridFuse`. -/
def mkSemanticOnly (sW : ℚ) (s : VASTHit) : VASTHit :=
  { s with score := s.score * sW, match_type := MatchType.hybrid }

/-- Closed-form result of the fusion map, against which `hybridFuse` is
proved equal (for duplicate-free inputs): every keyword hit with score
`kW` combined with its semantic counterpart, followed by the
semantic-only hits, each labelled `hybrid`. -/
def fuseSpec (kW sW : ℚ) (kw sem : List VASTHit) : List VASTHit :=
  kw.map (fun h => semScoreUpdate sW sem { h with score := kW }) ++
    (sem.filter (fun s =>
      !(kw.any (fun h => h.segment_id == s.segment_id)))).map (mkSemanticOnly sW)

/-! ### PostgreSQL search functions (`db/migrations/001_initial_schema.sql`)

`search_keyword` / `search_semantic` join `transcript_segments` (and
`transcript_embeddings`) with `media_assets` and filter on
`visibility = 'ACTIVE'`, `version_id = a.current_version_id` and
`a.tombstone = false`.  The engine-side full-text predicate, rank and
vector distance are parameters of the model. -/

/-- Joined, filtered rows of the `search_keyword` SQL function; `ftsMatch`
is the `to_tsvector @@ plainto_tsquery` predicate and `rank` the
`ts_rank` score. -/
def pgSearchKeywordRows (db : DBState) (ftsMatch : String → Bool)
    (rank : String → ℚ) (limit offset : Nat)
    (bucketFilter speakerFilter : Option String) :
    List (TranscriptSegment × MediaAsset) :=
  let joined := db.segments.flatMap (fun s =>
    (db.assets.filter (fun a => a.asset_id == s.asset_id)).map (fun a => (s, a)))
  let rows := joined.filter (fun p =>
    decide (p.1.visibility = Visibility.ACTIVE) &&
    decide (p.2.current_version_id = some p.1.version_id) &&
    !p.2.tombstone &&
    ftsMatch p.1.text &&
    (match bucketFilter with
     | none => true
     | some b => p.2.bucket == b) &&
    (match speakerFilter with
     | none => true
     | some sp => decide (p.1.speaker = some sp)))
  let ordered := List.insertionSort (descBy (fun p => rank p.1.text)) rows
  (ordered.drop offset).take limit

/-- Joined, filtered rows of the `search_semantic` SQL function; `dist` is
the pgvector cosine-distance of a stored embedding to the query vector. -/
def pgSearchSemanticRows (db : DBState) (dist : List ℚ → ℚ)
    (limit offset : Nat) (bucketFilter speakerFilter : Option String) :
    List (TranscriptEmbedding × TranscriptSegment × MediaAsset) :=
  let joined := db.embeddings.flatMap (fun e =>
    (db.segments.filter (fun s =>
      s.asset_id == e.asset_id && s.version_id == e.version_id &&
      s.segment_id == e.segment_id)).flatMap (fun s =>
        (db.assets.filter (fun a => a.asset_id == e.asset_id)).map
          (fun a => (e, s, a))))
  let rows := joined.filter (fun p =>
    decide (p.1.visibility = Visibility.ACTIVE) &&
    decide (p.2.1.visibility = Visibility.ACTIVE) &&
    decide (p.2.2.current_version_id = some p.1.version_id) &&
    !p.2.2.tombstone &&
    (match bucketFilter with
     | none => true
     | some b => p.2.2.bucket == b) &&
    (match speakerFilter with
     | none => true
     | some sp => decide (p.2.1.speaker = some sp)))
  let ordered := List.insertionSort (ascBy (fun p => dist p.1.embedding)) rows
  (ordered.drop offset).take limit

/-! ### Concrete fixtures used by the evaluation theorems -/

/-- An asset whose current version is `v2`. -/
def sampleAsset : MediaAsset :=
  { asset_id := "A"
    lineage_id := "L"
    bucket := "media"
    object_key := "a.wav"
    current_version_id := some "v2"
    status := AssetStatus.INDEXED
    triage_state := none
    recommended_action := none
    transcription_engine := "stub"
    last_error := none
    attempt := 0
    file_size := 10
    content_type := "audio/wav"
    etag := "E1"
    tombstone := false }

/-- The same asset with current version `v1`. -/
def sampleAssetCurrentV1 : MediaAsset :=
  { sampleAsset with current_version_id := some "v1" }

/-- The same asset, tombstoned. -/
def sampleAssetTombstoned : MediaAsset :=
  { sampleAsset with current_version_id := some "v1", tombstone := true }

/-- An ACTIVE segment of version `v1`. -/
def sampleSegmentV1 : TranscriptSegment :=
  { segment_id := "s1"
    asset_id := "A"
    version_id := "v1"
    start_ms := 0
    end_ms := 1000
    text := "hello world"
    speaker := none
    confidence := 9 / 10
    visibility := Visibility.ACTIVE
    created_at := 10 }

/-- A STAGING segment of version `v2`. -/
def sampleSegmentV2 : TranscriptSegment :=
  { sampleSegmentV1 with
      segment_id := "s2", version_id := "v2", text := "goodbye",
      visibility := Visibility.STAGING, created_at := 20 }

/-- An ACTIVE embedding for `s1`. -/
def sampleEmbeddingV1 : TranscriptEmbedding :=
  { embedding_id := "e1"
    asset_id := "A"
    version_id := "v1"
    segment_id := "s1"
    embedding := [1, 0]
    model := "stub"
    dimension := 2
    visibility := Visibility.ACTIVE }

/-- A STAGING embedding for `s2`. -/
def sampleEmbeddingV2 : TranscriptEmbedding :=
  { sampleEmbeddingV1 with
      embedding_id := "e2", version_id := "v2", segment_id := "s2",
      visibility := Visibility.STAGING }

/-- Version row `v1` (the publisher never touches `publish_state`, so an
already-cut-over version still carries `STAGING`). -/
def sampleVersionV1 : AssetVersion :=
  { version_id := "v1"
    asset_id := "A"
    status := AssetStatus.TRANSCRIBED
    publish_state := Visibility.STAGING
    etag := "E1"
    file_size := 10 }

/-- Version row `v2`, still staging. -/
def sampleVersionV2 : AssetVersion :=
  { sampleVersionV1 with version_id := "v2", etag := "E2" }

/-- Database for the C1 evaluation: current version is `v2`, yet an ACTIVE
segment of `v1` is present (exactly the state the publisher's
archive-then-promote window produces). -/
def c1db : DBState :=
  { assets := [sampleAsset], versions := [], segments := [sampleSegmentV1],
    embeddings := [] }

/-- Database for C1 with the asset tombstoned but its segment still ACTIVE
(the state between `tombstoneAsset` and `softDeleteSegments`). -/
def c1dbTombstoned : DBState :=
  { assets := [sampleAssetTombstoned], versions := [],
    segments := [sampleSegmentV1], embeddings := [] }

/-- Database for the C2 / C7 evaluations: asset current at `v1` with the
`v1` rows ACTIVE and freshly written `v2` rows STAGING. -/
def c2db : DBState :=
  { assets := [sampleAssetCurrentV1]
    versions := [sampleVersionV1, sampleVersionV2]
    segments := [sampleSegmentV1, sampleSegmentV2]
    embeddings := [sampleEmbeddingV1, sampleEmbeddingV2] }

/-- A job on its fifth attempt (`attempt = MAX_RETRY_ATTEMPTS - 1`). -/
def c4Job : TranscriptionJob :=
  { job_id := "J0"
    asset_id := "A"
    version_id := "v1"
    engine_policy := DEFAULT_ENGINE_POLICY
    attempt := 4
    idempotency_key := "A:v1:4" }

/-- A job on its first attempt. -/
def c5Job : TranscriptionJob :=
  { c4Job with attempt := 0, idempotency_key := "A:v1:0" }

/-- Two jobs sharing an idempotency key but with distinct job ids. -/
def c9JobA : TranscriptionJob :=
  { job_id := "job-1"
    asset_id := "A"
    version_id := "V"
    engine_policy := DEFAULT_ENGINE_POLICY
    attempt := 0
    idempotency_key := "A:V:0" }

/-- Second job with the same idempotency key. -/
def c9JobB : TranscriptionJob :=
  { c9JobA with job_id := "job-2" }

/-- Object metadata for the ingest evaluations. -/
def c8Meta : ObjectMetadata :=
  { etag := "E1", size := 1024, contentType := "audio/wav",
    lastModifiedMs := 1700000000000 }

/-- An asset for `hello.wav` with no published version yet. -/
def c8Asset : MediaAsset :=
  { sampleAsset with
      object_key := "hello.wav", current_version_id := none,
      status := AssetStatus.INGESTED }

/-- The version row whose id `handleObjectCreated` recomputes at
`nowMs = 0`. -/
def c8Version : AssetVersion :=
  { version_id := computeVersionId "E1" 1024 1700000000000 0
    asset_id := "A"
    status := AssetStatus.INGESTED
    publish_state := Visibility.STAGING
    etag := "E1"
    file_size := 1024 }

/-- Database in which the computed version already exists for the asset. -/
def c8db : DBState :=
  { assets := [c8Asset], versions := [c8Version], segments := [],
    embeddings := [] }

/-- A quarantined asset with a current version, eligible for triage retry. -/
def c10Asset : MediaAsset :=
  { sampleAsset with
      status := AssetStatus.QUARANTINED
      current_version_id := some "v1"
      triage_state := some TriageState.NEEDS_MEDIA_FIX
      last_error := some "bad codec"
      attempt := 5 }

/-- Database for the C10 witness. -/
def c10db : DBState :=
  { DBState.empty with assets := [c10Asset] }

/-- First ingest of `hello.wav` (`Date.now() = 0`) into an empty system;
the error branch is never taken (asserted by the C3 theorem). -/
def c3Ingest1 : DBState × LocalQueue :=
  match handleObjectCreated DBState.empty LocalQueue.empty "media" "hello.wav"
      (some "E1") (some 1024) c8Meta "A1" "L1" "J1" 0 "stub" with
  | Except.ok r => r
  | Except.error _ => (DBState.empty, LocalQueue.empty)

/-- Re-ingest of the identical object one millisecond later
(`Date.now() = 1`). -/
def c3Ingest2 : DBState × LocalQueue :=
  match handleObjectCreated c3Ingest1.1 c3Ingest1.2 "media" "hello.wav"
      (some "E1") (some 1024) c8Meta "A2" "L2" "J2" 1 "stub" with
  | Except.ok r => r
  | Except.error _ => (DBState.empty, LocalQueue.empty)

/-- A keyword-only hit (as produced by the VAST keyword search). -/
def c6KwHit : VASTHit :=
  { segment_id := "a"
    asset_id := "A"
    version_id := "v2"
    text := "agenda item"
    start_ms := 0
    end_ms := 5
    speaker := ""
    confidence := 1
    score := 1
    match_type := MatchType.keyword }

/-- A semantic-only hit (as produced by the VAST semantic search). -/
def c6SemHit : VASTHit :=
  { c6KwHit with
      segment_id := "b", text := "other text", start_ms := 5,
      end_ms := 9, match_type := MatchType.semantic }

/-! ### Helper lemmas -/

/-- Mapping with pointwise-equal functions gives equal lists. -/
theorem map_eq_on {α β : Type} (f g : α → β) :
    ∀ l : List α, (∀ a ∈ l, f a = g a) → l.map f = l.map g
  | [], _ => rfl
  | a :: t, h => by
      simp only [List.map_cons]
      rw [h a (List.mem_cons_self a t), map_eq_on f g t (fun x hx => h x (List.mem_cons_of_mem a hx))]

/-- `any` with pointwise-equal predicates. -/
theorem any_eq_on {α : Type} (p q : α → Bool) :
    ∀ l : List α, (∀ a ∈ l, p a = q a) → l.any p = l.any q
  | [], _ => rfl
  | a :: t, h => by
      simp only [List.any_cons]
      rw [h a (List.mem_cons_self a t), any_eq_on p q t (fun x hx => h x (List.mem_cons_of_mem a hx))]

/-- `filter` with pointwise-equal predicates. -/
theorem filter_eq_on {α : Type} (p q : α → Bool) :
    ∀ l : List α, (∀ a ∈ l, p a = q a) → l.filter p = l.filter q
  | [], _ => rfl
  | a :: t, h => by
      simp only [List.filter_cons]
      rw [h a (List.mem_cons_self a t), filter_eq_on p q t (fun x hx => h x (List.mem_cons_of_mem a hx))]

/-- Row-level effect of `updateAssetStatus` on the targeted asset. -/
theorem updateAssetStatus_mem (db : DBState) (assetId : String) (st : AssetStatus)
    (opts : StatusUpdateOptions) :
    ∀ a ∈ (updateAssetStatus db assetId st opts).assets, a.asset_id = assetId →
      a.status = st ∧
      (∀ v, opts.triageState = some v → a.triage_state = v) ∧
      (∀ v, opts.lastError = some v → a.last_error = v) ∧
      (∀ n, opts.attempt = some n → a.attempt = n) ∧
      (∀ v, opts.recommendedAction = some v → a.recommended_action = v) := by
  intro a ha hid
  simp only [updateAssetStatus, List.mem_map] at ha
  obtain ⟨x, _, hax⟩ := ha
  by_cases hb : x.asset_id = assetId
  · rw [if_pos (by simp [hb])] at hax
    subst hax
    refine ⟨rfl, ?_, ?_, ?_, ?_⟩ <;> intro v hv <;> simp [applyStatusUpdate, hv]
  · rw [if_neg (by simp [hb])] at hax
    subst hax
    exact absurd hid hb

/-- Row-level effect of `tombstoneAsset` on the targeted asset. -/
theorem tombstoneAsset_mem (db : DBState) (assetId : String) :
    ∀ a ∈ (tombstoneAsset db assetId).assets, a.asset_id = assetId →
      a.tombstone = true ∧ a.status = AssetStatus.DELETED ∧
      a.current_version_id = none := by
  intro a ha hid
  simp only [tombstoneAsset, List.mem_map] at ha
  obtain ⟨x, _, hax⟩ := ha
  by_cases hb : x.asset_id = assetId
  · rw [if_pos (by simp [hb])] at hax
    subst hax
    exact ⟨rfl, rfl, rfl⟩
  · rw [if_neg (by simp [hb])] at hax
    subst hax
    exact absurd hid hb

/-- Row-level effect of `softDeleteSegments` on the asset's segments. -/
theorem softDeleteSegments_mem (db : DBState) (assetId : String) :
    ∀ s ∈ (softDeleteSegments db assetId).segments, s.asset_id = assetId →
      s.visibility = Visibility.SOFT_DELETED := by
  intro s hs hid
  simp only [softDeleteSegments, List.mem_map] at hs
  obtain ⟨x, _, hsx⟩ := hs
  by_cases hb : x.asset_id = assetId
  · rw [if_pos (by simp [hb])] at hsx
    subst hsx
    rfl
  · rw [if_neg (by simp [hb])] at hsx
    subst hsx
    exact absurd hid hb

/-- Row-level effect of `softDeleteEmbeddings` on the asset's embeddings. -/
theorem softDeleteEmbeddings_mem (db : DBState) (assetId : String) :
    ∀ e ∈ (softDeleteEmbeddings db assetId).embeddings, e.asset_id = assetId →
      e.visibility = Visibility.SOFT_DELETED := by
  intro e he hid
  simp only [softDeleteEmbeddings, List.mem_map] at he
  obtain ⟨x, _, hex⟩ := he
  by_cases hb : x.asset_id = assetId
  · rw [if_pos (by simp [hb])] at hex
    subst hex
    rfl
  · rw [if_neg (by simp [hb])] at hex
    subst hex
    exact absurd hid hb

/-- After `moveToDLQ`, the DLQ contains an entry for the job. -/
theorem moveToDLQ_any (q : LocalQueue) (job : TranscriptionJob) (err : String) :
    ((q.moveToDLQ job err).dlq.any
      (fun e => e.dlq_job_id == "dlq_" ++ job.job_id)) = true := by
  simp only [LocalQueue.moveToDLQ]
  by_cases h : (q.dlq.any (fun e => e.dlq_job_id == "dlq_" ++ job.job_id)) = true
  · simp [h]
  · simp [h]

/-- Bounds for `floor (c + c/4 · (2r − 1))` when `3c/4` is an integer and
`r ∈ [0, 1)`. -/
theorem floor_jitter_bounds (c r : ℚ) (m : ℤ) (hc : 0 ≤ c)
    (hm : (m : ℚ) = 3 / 4 * c) (h0 : 0 ≤ r) (h1 : r < 1) :
    3 / 4 * c ≤ ((Int.floor (c + c * (1 / 4) * (r * 2 - 1)) : ℤ) : ℚ) ∧
    ((Int.floor (c + c * (1 / 4) * (r * 2 - 1)) : ℤ) : ℚ) ≤ 5 / 4 * c := by
  constructor
  · have hx : (m : ℚ) ≤ c + c * (1 / 4) * (r * 2 - 1) := by nlinarith
    have hfl := Int.le_floor.mpr hx
    have : (m : ℚ) ≤ ((Int.floor (c + c * (1 / 4) * (r * 2 - 1)) : ℤ) : ℚ) := by
      exact_mod_cast hfl
    linarith [hm ▸ this]
  · have h2 : c + c * (1 / 4) * (r * 2 - 1) ≤ 5 / 4 * c := by nlinarith
    have h3 := Int.floor_le (c + c * (1 / 4) * (r * 2 - 1))
    linarith

/-- Bounds for `calculateBackoffDelay` at the orchestrator's defaults:
the delay always lies in `[0.75 · c, 1.25 · c]` for
`c = min(1000 · 2 ^ attempt, 300000)`. -/
theorem calculateBackoffDelay_bounds (attempt : Nat) (rand : ℚ)
    (h0 : 0 ≤ rand) (h1 : rand < 1) :
    3 / 4 * min ((1000 : ℚ) * 2 ^ attempt) 300000 ≤
      ((calculateBackoffDelay attempt 1000 300000 rand : ℤ) : ℚ) ∧
    ((calculateBackoffDelay attempt 1000 300000 rand : ℤ) : ℚ) ≤
      5 / 4 * min ((1000 : ℚ) * 2 ^ attempt) 300000 := by
  have hc : (0 : ℚ) ≤ min ((1000 : ℚ) * 2 ^ attempt) 300000 :=
    le_min (by positivity) (by norm_num)
  have hdef : calculateBackoffDelay attempt 1000 300000 rand =
      Int.floor (min ((1000 : ℚ) * 2 ^ attempt) 300000 +
        min ((1000 : ℚ) * 2 ^ attempt) 300000 * (1 / 4) * (rand * 2 - 1)) := by
    simp [calculateBackoffDelay]
  rcases le_total ((1000 : ℚ) * 2 ^ attempt) 300000 with h | h
  · have hm : ((750 * 2 ^ attempt : ℤ) : ℚ) =
        3 / 4 * min ((1000 : ℚ) * 2 ^ attempt) 300000 := by
      rw [min_eq_left h]; push_cast; ring
    have hb := floor_jitter_bounds (min ((1000 : ℚ) * 2 ^ attempt) 300000) rand
      (750 * 2 ^ attempt) hc hm h0 h1
    rw [hdef]
    exact hb
  · have hm : ((225000 : ℤ) : ℚ) =
        3 / 4 * min ((1000 : ℚ) * 2 ^ attempt) 300000 := by
      rw [min_eq_right h]; norm_num
    have hb := floor_jitter_bounds (min ((1000 : ℚ) * 2 ^ attempt) 300000) rand
      225000 hc hm h0 h1
    rw [hdef]
    exact hb

/-- Every row produced by the Postgres `search_keyword` SQL function passes
the three hard filters: ACTIVE visibility, current-version binding and
tombstone exclusion. -/
theorem pgSearchKeywordRows_filters (db : DBState) (ftsMatch : String → Bool)
    (rank : String → ℚ) (limit offset : Nat)
    (bucketFilter speakerFilter : Option String) :
    ∀ p ∈ pgSearchKeywordRows db ftsMatch rank limit offset bucketFilter speakerFilter,
      p.1.visibility = Visibility.ACTIVE ∧
      p.2.current_version_id = some p.1.version_id ∧
      p.2.tombstone = false := by
  intro p hp
  simp only [pgSearchKeywordRows] at hp
  have h1 := List.take_subset _ _ hp
  have h2 := List.drop_subset _ _ h1
  have h3 := (List.perm_insertionSort _ _).subset h2
  rw [List.mem_filter] at h3
  have h4 := h3.2
  simp only [Bool.and_eq_true, decide_eq_true_eq, Bool.not_eq_true'] at h4
  exact ⟨h4.1.1.1.1.1, h4.1.1.1.1.2, h4.1.1.1.2⟩

/-- Every row produced by the Postgres `search_semantic` SQL function passes
the hard filters on both the embedding and its segment. -/
theorem pgSearchSemanticRows_filters (db : DBState) (dist : List ℚ → ℚ)
    (limit offset : Nat) (bucketFilter speakerFilter : Option String) :
    ∀ p ∈ pgSearchSemanticRows db dist limit offset bucketFilter speakerFilter,
      p.1.visibility = Visibility.ACTIVE ∧
      p.2.1.visibility = Visibility.ACTIVE ∧
      p.2.2.current_version_id = some p.1.version_id ∧
      p.2.2.tombstone = false := by
  intro p hp
  simp only [pgSearchSemanticRows] at hp
  have h1 := List.take_subset _ _ hp
  have h2 := List.drop_subset _ _ h1
  have h3 := (List.perm_insertionSort _ _).subset h2
  rw [List.mem_filter] at h3
  have h4 := h3.2
  simp only [Bool.and_eq_true, decide_eq_true_eq, Bool.not_eq_true'] at h4
  exact ⟨h4.1.1.1.1.1, h4.1.1.1.1.2, h4.1.1.1.2, h4.1.1.2⟩

/-- `semScoreUpdate` when the segment has no semantic counterpart. -/
theorem semScoreUpdate_of_none (sW : ℚ) (sem : List VASTHit) (e : VASTHit)
    (h : sem.find? (fun x => x.segment_id == e.segment_id) = none) :
    semScoreUpdate sW sem e = e := by
  simp [semScoreUpdate, h]

/-- `semScoreUpdate` when the segment has a semantic counterpart. -/
theorem semScoreUpdate_of_some (sW : ℚ) (sem : List VASTHit) (e x : VASTHit)
    (h : sem.find? (fun s => s.segment_id == e.segment_id) = some x) :
    semScoreUpdate sW sem e =
      { e with score := e.score + x.score * sW, match_type := MatchType.hybrid } := by
  simp [semScoreUpdate, h]

/-- `semScoreUpdate` ignores a head hit for a different segment. -/
theorem semScoreUpdate_cons_of_ne (sW : ℚ) (s : VASTHit) (rest : List VASTHit)
    (e : VASTHit) (h : s.segment_id ≠ e.segment_id) :
    semScoreUpdate sW (s :: rest) e = semScoreUpdate sW rest e := by
  simp only [semScoreUpdate]
  rw [List.find?_cons_of_neg _ (by simp [h])]

/-- The keyword pass of the hybrid fusion, on duplicate-free keyword hits
disjoint from the accumulator: each hit is appended with its score set to
the keyword weight. -/
theorem kwFold_eq (kW : ℚ) :
    ∀ (kw acc : List VASTHit),
      kw.Pairwise (fun a b => a.segment_id ≠ b.segment_id) →
      (∀ h ∈ kw, ∀ e ∈ acc, e.segment_id ≠ h.segment_id) →
      kw.foldl (addKeywordHit kW) acc = acc ++ kw.map (fun h => { h with score := kW })
  | [], acc, _, _ => by simp
  | h :: t, acc, hpw, hdisj => by
      have hany : (acc.any (fun e => e.segment_id == h.segment_id)) = false := by
        simp only [List.any_eq_false, beq_iff_eq]
        intro e he
        exact hdisj h (List.mem_cons_self h t) e he
      have hstep : addKeywordHit kW acc h = acc ++ [{ h with score := kW }] := by
        simp [addKeywordHit, hany]
      have hd : ∀ hh ∈ t, ∀ e ∈ addKeywordHit kW acc h, e.segment_id ≠ hh.segment_id := by
        intro hh hht e he
        rw [hstep] at he
        rcases List.mem_append.mp he with he | he
        · exact hdisj hh (List.mem_cons_of_mem h hht) e he
        · have he' : e = { h with score := kW } := by simpa using he
          subst he'
          exact (List.pairwise_cons.mp hpw).1 hh hht
      rw [List.foldl_cons, kwFold_eq kW t (addKeywordHit kW acc h) hpw.of_cons hd,
        hstep, List.map_cons, List.append_assoc, List.singleton_append]

/-- The semantic pass of the hybrid fusion, on duplicate-free semantic
hits: present segments get the weighted semantic score added and are
relabelled hybrid; absent segments are appended, also labelled hybrid. -/
theorem semFold_eq (sW : ℚ) :
    ∀ (sem acc : List VASTHit),
      sem.Pairwise (fun a b => a.segment_id ≠ b.segment_id) →
      sem.foldl (addSemanticHit sW) acc =
        acc.map (semScoreUpdate sW sem) ++
          (sem.filter
            (fun s => !(acc.any (fun e => e.segment_id == s.segment_id)))).map
            (mkSemanticOnly sW)
  | [], acc, _ => by
      simp only [List.foldl_nil, List.filter_nil, List.map_nil, List.append_nil]
      have h0 : acc.map (semScoreUpdate sW []) = acc.map (fun e => e) :=
        map_eq_on _ _ acc (fun e _ => rfl)
      rw [h0]
      simp
  | s :: rest, acc, hpw => by
      have hsrest : ∀ x ∈ rest, s.segment_id ≠ x.segment_id :=
        (List.pairwise_cons.mp hpw).1
      rw [List.foldl_cons, semFold_eq sW rest (addSemanticHit sW acc s) hpw.of_cons]
      by_cases hmem : (acc.any (fun e => e.segment_id == s.segment_id)) = true
      · have hstep : addSemanticHit sW acc s = acc.map (fun e =>
            if e.segment_id == s.segment_id then
              { e with score := e.score + s.score * sW,
                       match_type := MatchType.hybrid }
            else e) := by
          simp [addSemanticHit, hmem]
        rw [hstep]
        congr 1
        · rw [List.map_map]
          apply map_eq_on
          intro e _
          simp only [Function.comp_apply]
          by_cases hid : e.segment_id = s.segment_id
          · have hbeq : (e.segment_id == s.segment_id) = true := by simp [hid]
            rw [if_pos hbeq]
            have hfind : rest.find? (fun x => x.segment_id == e.segment_id) = none := by
              simp only [List.find?_eq_none, beq_iff_eq]
              intro x hx hxe
              exact hsrest x hx (hid ▸ hxe).symm
            rw [semScoreUpdate_of_none sW rest
              { e with score := e.score + s.score * sW,
                       match_type := MatchType.hybrid } hfind,
              semScoreUpdate_of_some sW (s :: rest) e s
                (List.find?_cons_of_pos _ (by simp [hid]))]
          · have hbeq : ¬((e.segment_id == s.segment_id) = true) := by simp [hid]
            rw [if_neg hbeq,
              semScoreUpdate_cons_of_ne sW s rest e (fun hh => hid hh.symm)]
        · congr 1
          have hfilter1 : (s :: rest).filter
              (fun x => !(acc.any (fun e => e.segment_id == x.segment_id))) =
              rest.filter
                (fun x => !(acc.any (fun e => e.segment_id == x.segment_id))) := by
            simp [List.filter_cons, hmem]
          rw [hfilter1]
          apply filter_eq_on
          intro x _
          rw [List.any_map]
          rw [any_eq_on _ (fun e => e.segment_id == x.segment_id) acc ?_]
          intro e _
          simp only [Function.comp_apply]
          by_cases hid : e.segment_id = s.segment_id
          · have hbeq : (e.segment_id == s.segment_id) = true := by simp [hid]
            rw [if_pos hbeq]
          · have hbeq : ¬((e.segment_id == s.segment_id) = true) := by simp [hid]
            rw [if_neg hbeq]
      · have hmem' : (acc.any (fun e => e.segment_id == s.segment_id)) = false := by
          cases hv : (acc.any (fun e => e.segment_id == s.segment_id)) with
          | true => exact absurd hv hmem
          | false => rfl
        have hstep : addSemanticHit sW acc s = acc ++ [mkSemanticOnly sW s] := by
          simp [addSemanticHit, mkSemanticOnly, hmem']
        rw [hstep, List.map_append]
        have hupd : semScoreUpdate sW rest (mkSemanticOnly sW s) = mkSemanticOnly sW s := by
          apply semScoreUpdate_of_none
          simp only [List.find?_eq_none, beq_iff_eq]
          intro x hx hxe
          exact hsrest x hx hxe.symm
        have haccids : ∀ e ∈ acc, s.segment_id ≠ e.segment_id := by
          intro e he
          have h5 := List.any_eq_false.mp hmem' e he
          simp only [beq_iff_eq] at h5
          exact fun hh => h5 hh.symm
        have hmapeq : acc.map (semScoreUpdate sW rest) =
            acc.map (semScoreUpdate sW (s :: rest)) :=
          map_eq_on _ _ acc
            (fun e he => (semScoreUpdate_cons_of_ne sW s rest e (haccids e he)).symm)
        rw [hmapeq]
        have hfilter2 : rest.filter
            (fun x => !((acc ++ [mkSemanticOnly sW s]).any
              (fun e => e.segment_id == x.segment_id))) =
            rest.filter
              (fun x => !(acc.any (fun e => e.segment_id == x.segment_id))) := by
          apply filter_eq_on
          intro x hx
          simp only [List.any_append, List.any_cons, List.any_nil, Bool.or_false]
          have hb : ((mkSemanticOnly sW s).segment_id == x.segment_id) = false := by
            simp only [beq_eq_false_iff_ne, ne_eq]
            exact hsrest x hx
          rw [hb, Bool.or_false]
        have hfilter3 : (s :: rest).filter
            (fun x => !(acc.any (fun e => e.segment_id == x.segment_id))) =
            s :: rest.filter
              (fun x => !(acc.any (fun e => e.segment_id == x.segment_id))) := by
          simp [List.filter_cons, hmem']
        rw [hfilter2, hfilter3]
        simp [hupd, List.append_assoc]

/-- `hybridFuse` equals its closed-form description on duplicate-free
inputs. -/
theorem hybridFuse_eq_fuseSpec (kW sW : ℚ) (kw sem : List VASTHit)
    (hkw : kw.Pairwise (fun a b => a.segment_id ≠ b.segment_id))
    (hsem : sem.Pairwise (fun a b => a.segment_id ≠ b.segment_id)) :
    hybridFuse kW sW kw sem = fuseSpec kW sW kw sem := by
  unfold hybridFuse
  rw [kwFold_eq kW kw [] hkw (by simp), List.nil_append,
    semFold_eq sW sem _ hsem]
  unfold fuseSpec
  congr 1
  · rw [List.map_map]
    rfl
  · congr 1
    apply filter_eq_on
    intro x _
    rw [List.any_map]
    rfl

/-! ### Claim theorems -/

/-- Claim C1.  The claim says every hit returned by any query path refers
to a segment whose visibility is ACTIVE, whose version id equals its
asset's current version id, and whose asset is not tombstoned.  The VAST
adapter's `searchKeyword` filters only on `visibility = 'ACTIVE'`:
on a database whose asset points at `v2`, it returns the ACTIVE `v1`
segment (version binding bypassed), and on a database whose asset is
tombstoned but still has an ACTIVE segment it returns that segment too
(tombstone filter bypassed). -/
theorem c1_vast_search_bypasses_filters :
    (vastSearchKeyword c1db "hello world" 100).map (fun h => h.version_id) = ["v1"] ∧
    (getAsset c1db "A").map (fun a => a.current_version_id) = some (some "v2") ∧
    (vastSearchKeyword c1dbTombstoned "hello world" 100).map
      (fun h => h.segment_id) = ["s1"] ∧
    (getAsset c1dbTombstoned "A").map (fun a => a.tombstone) = some true := by
  with_unfolding_all decide

/-- Claim C2.  The claim says the cutover runs in one all-or-nothing
transaction and `current-version-id` never references a non-ACTIVE
version.  In the code each mutation of `publishVersion` runs through
`this.pool.query` on its own auto-committed connection (the `BEGIN` /
`COMMIT` run on a separate pooled client), so intermediate states are
observable: after the archive steps the asset still points at `v1` while
every `v1` segment is already ARCHIVED.  Moreover the publisher never
writes `asset_versions.publish_state` at all, so even the final state has
`current_version_id = v2` while the `v2` version row's publish state is
still STAGING. -/
theorem c2_publish_not_atomic :
    (publishVersionObservables c2db "A" "v2").length = 7 ∧
    ((publishVersionObservables c2db "A" "v2").getD 2 DBState.empty).assets.map
      (fun a => a.current_version_id) = [some "v1"] ∧
    ((publishVersionObservables c2db "A" "v2").getD 2 DBState.empty).segments.map
      (fun s => (s.version_id, s.visibility)) =
      [("v1", Visibility.ARCHIVED), ("v2", Visibility.STAGING)] ∧
    (publishVersionObservables c2db "A" "v2").getD 2 DBState.empty ≠ c2db ∧
    (publishVersionObservables c2db "A" "v2").getD 2 DBState.empty ≠
      publishVersion c2db "A" "v2" ∧
    (publishVersion c2db "A" "v2").assets.map (fun a => a.current_version_id) =
      [some "v2"] ∧
    (getVersion (publishVersion c2db "A" "v2") "v2").map
      (fun v => v.publish_state) = some Visibility.STAGING := by
  with_unfolding_all decide

/-- Claim C3.  The claim says `computeVersionId` is a deterministic
function of `(etag, size, mtime)` and that re-ingesting identical content
creates no new version or job rows.  The implementation appends
`Date.now().toString(36)`, so two calls with identical metadata at
different wall-clock instants return different ids, and re-ingesting the
same object one millisecond later passes the idempotency check and
creates a second version row and a second job. -/
theorem c3_computeVersionId_time_dependent :
    computeVersionId "E1" 1024 1700000000000 0 ≠
      computeVersionId "E1" 1024 1700000000000 1 ∧
    (handleObjectCreated DBState.empty LocalQueue.empty "media" "hello.wav"
      (some "E1") (some 1024) c8Meta "A1" "L1" "J1" 0 "stub").toOption =
      some c3Ingest1 ∧
    c3Ingest1.1.versions.length = 1 ∧ c3Ingest1.2.main.length = 1 ∧
    (handleObjectCreated c3Ingest1.1 c3Ingest1.2 "media" "hello.wav"
      (some "E1") (some 1024) c8Meta "A2" "L2" "J2" 1 "stub").toOption =
      some c3Ingest2 ∧
    c3Ingest2.1.versions.length = 2 ∧ c3Ingest2.2.main.length = 2 := by
  with_unfolding_all decide

/-- Claim C9.  The claim says a second enqueue with the same idempotency
key is a no-op, so at most one queued job exists per idempotency key.
`LocalQueueAdapter.enqueueJob` passes `job.job_id` as the BullMQ `jobId`,
so deduplication is keyed on the job id, not the idempotency key: two
jobs that share the key `A:V:0` but carry distinct (freshly random) job
ids are both queued. -/
theorem c9_local_queue_dedup_by_job_id_only :
    c9JobA.idempotency_key = c9JobB.idempotency_key ∧
    c9JobA.job_id ≠ c9JobB.job_id ∧
    ((LocalQueue.empty.enqueueJob c9JobA).enqueueJob c9JobB).main.length = 2 ∧
    ((LocalQueue.empty.enqueueJob c9JobA).enqueueJob c9JobA).main.length = 1 := by
  with_unfolding_all decide

/-- Claim C5 (counterexample).  The claim puts the retry delay in
`[0.75 · min(BASE · 2 ^ attempt, MAX), 1.25 · min(...)]` with `attempt`
the failing job's attempt count.  The orchestrator calls
`calculateBackoffDelay(newAttempt)` with `newAttempt = attempt + 1`: for
a first-attempt job (`attempt = 0`) and central jitter (`rand = 1/2`)
the enqueued delay is `2000 ms`, outside the claimed `[750, 1250]`. -/
theorem c5_counterexample_delay_uses_incremented_attempt :
    isRetryableError "connection timeout" = true ∧
    c5Job.attempt + 1 < MAX_RETRY_ATTEMPTS ∧
    (handleJobError c1db LocalQueue.empty c5Job "connection timeout" "J1"
      (1 / 2)).2.main.map (fun p => p.2) = [2000] ∧
    ¬ ((2000 : ℚ) ≤ 5 / 4 * min ((1000 : ℚ) * 2 ^ c5Job.attempt) 300000) := by
  with_unfolding_all decide

/-- Claim C5 (amended): on a retryable failure with
`attempt + 1 < MAX_RETRY_ATTEMPTS`, the orchestrator re-enqueues a fresh
job with the attempt incremented and idempotency key
`{asset}:{version}:{attempt+1}`, sets the asset to PENDING_RETRY, and the
delay lies in `[0.75 · c, 1.25 · c]` for
`c = min(BASE · 2 ^ (attempt + 1), MAX_DELAY)` — the exponent uses the
*incremented* attempt. -/
theorem c5_amended_backoff_bounds (db : DBState) (q : LocalQueue)
    (job : TranscriptionJob) (errMsg freshId : String) (rand : ℚ)
    (hret : isRetryableError errMsg = true)
    (hatt : job.attempt + 1 < MAX_RETRY_ATTEMPTS)
    (h0 : 0 ≤ rand) (h1 : rand < 1)
    (hfresh : (q.main.any (fun p => p.1.job_id == freshId)) = false)
    (hne : freshId ≠ job.job_id) :
    (∃ p ∈ (handleJobError db q job errMsg freshId rand).2.main,
      p.1.job_id = freshId ∧ p.1.attempt = job.attempt + 1 ∧
      p.1.idempotency_key =
        job.asset_id ++ ":" ++ job.version_id ++ ":" ++ toString (job.attempt + 1) ∧
      3 / 4 * min ((1000 : ℚ) * 2 ^ (job.attempt + 1)) 300000 ≤ (p.2 : ℚ) ∧
      (p.2 : ℚ) ≤ 5 / 4 * min ((1000 : ℚ) * 2 ^ (job.attempt + 1)) 300000) ∧
    (∀ a ∈ (handleJobError db q job errMsg freshId rand).1.assets,
      a.asset_id = job.asset_id → a.status = AssetStatus.PENDING_RETRY) := by
  have hn : ¬ (MAX_RETRY_ATTEMPTS ≤ job.attempt + 1) := Nat.not_le.mpr hatt
  have hred : handleJobError db q job errMsg freshId rand =
      (updateAssetStatus db job.asset_id AssetStatus.PENDING_RETRY
        { triageState := none
          lastError := some (some errMsg)
          attempt := some (job.attempt + 1)
          recommendedAction := none },
       ((q.enqueueJobWithDelay
          { job with
              job_id := freshId
              attempt := job.attempt + 1
              idempotency_key :=
                job.asset_id ++ ":" ++ job.version_id ++ ":" ++ toString (job.attempt + 1) }
          (calculateBackoffDelay (job.attempt + 1) 1000 300000 rand)).ackJob
          job.job_id)) := by
    simp [handleJobError, hret, hn]
  rw [hred]
  constructor
  · have hq : ((q.enqueueJobWithDelay
          { job with
              job_id := freshId
              attempt := job.attempt + 1
              idempotency_key :=
                job.asset_id ++ ":" ++ job.version_id ++ ":" ++ toString (job.attempt + 1) }
          (calculateBackoffDelay (job.attempt + 1) 1000 300000 rand)).ackJob
          job.job_id).main =
        q.main.filter (fun p => !(p.1.job_id == job.job_id)) ++
          [({ job with
                job_id := freshId
                attempt := job.attempt + 1
                idempotency_key :=
                  job.asset_id ++ ":" ++ job.version_id ++ ":" ++ toString (job.attempt + 1) },
            calculateBackoffDelay (job.attempt + 1) 1000 300000 rand)] := by
      simp [LocalQueue.enqueueJobWithDelay, LocalQueue.ackJob, hfresh,
        List.filter_append, hne]
    rw [hq]
    refine ⟨_, List.mem_append_right _ (List.mem_singleton_self _), rfl, rfl, rfl, ?_, ?_⟩
    · exact (calculateBackoffDelay_bounds (job.attempt + 1) rand h0 h1).1
    · exact (calculateBackoffDelay_bounds (job.attempt + 1) rand h0 h1).2
  · intro a ha hid
    exact (updateAssetStatus_mem db job.asset_id AssetStatus.PENDING_RETRY _ a ha hid).1

/-- Claim C5 witness: concrete first-attempt job, `rand = 0`. -/
theorem c5_amended_backoff_bounds_witness :
    isRetryableError "connection timeout" = true ∧
    c5Job.attempt + 1 < MAX_RETRY_ATTEMPTS ∧
    (∃ p ∈ (handleJobError c1db LocalQueue.empty c5Job "connection timeout" "J1"
        0).2.main,
      p.1.job_id = "J1" ∧ p.1.attempt = c5Job.attempt + 1 ∧
      p.1.idempotency_key =
        c5Job.asset_id ++ ":" ++ c5Job.version_id ++ ":" ++ toString (c5Job.attempt + 1) ∧
      3 / 4 * min ((1000 : ℚ) * 2 ^ (c5Job.attempt + 1)) 300000 ≤ (p.2 : ℚ) ∧
      (p.2 : ℚ) ≤ 5 / 4 * min ((1000 : ℚ) * 2 ^ (c5Job.attempt + 1)) 300000) :=
  ⟨by decide, by decide,
   (c5_amended_backoff_bounds c1db LocalQueue.empty c5Job "connection timeout" "J1" 0
      (by decide) (by decide) (le_refl 0) (by norm_num) (by decide)
      (by decide)).1⟩

/-- Claim C4: on a non-retryable error, or when the incremented attempt
reaches `MAX_RETRY_ATTEMPTS` (in particular a retryable failure at
`attempt = MAX_RETRY_ATTEMPTS - 1`), the orchestrator parks the job in
the DLQ, removes it from the main queue without re-enqueueing any retry,
and quarantines the asset with the triage state and recommended action
from the classification functions and the incremented attempt count. -/
theorem c4_exhausted_or_terminal_goes_to_dlq (db : DBState) (q : LocalQueue)
    (job : TranscriptionJob) (errMsg freshId : String) (rand : ℚ)
    (h : isRetryableError errMsg = false ∨ MAX_RETRY_ATTEMPTS ≤ job.attempt + 1) :
    ((handleJobError db q job errMsg freshId rand).2.dlq.any
      (fun e => e.dlq_job_id == "dlq_" ++ job.job_id)) = true ∧
    (handleJobError db q job errMsg freshId rand).2.main =
      q.main.filter (fun p => !(p.1.job_id == job.job_id)) ∧
    (∀ a ∈ (handleJobError db q job errMsg freshId rand).1.assets,
      a.asset_id = job.asset_id →
        a.status = AssetStatus.QUARANTINED ∧
        a.triage_state = some (determineTriageState errMsg) ∧
        a.recommended_action =
          some (getRecommendedAction (determineTriageState errMsg)) ∧
        a.last_error = some errMsg ∧
        a.attempt = job.attempt + 1) := by
  have hcond : (!isRetryableError errMsg ||
      decide (MAX_RETRY_ATTEMPTS ≤ job.attempt + 1)) = true := by
    rcases h with h | h
    · simp [h]
    · simp [h]
  have hred : handleJobError db q job errMsg freshId rand =
      (updateAssetStatus db job.asset_id AssetStatus.QUARANTINED
        { triageState := some (some (determineTriageState errMsg))
          lastError := some (some errMsg)
          attempt := some (job.attempt + 1)
          recommendedAction :=
            some (some (getRecommendedAction (determineTriageState errMsg))) },
       q.moveToDLQ job errMsg) := by
    simp only [handleJobError, hcond]
    simp
  rw [hred]
  refine ⟨moveToDLQ_any q job errMsg, rfl, ?_⟩
  intro a ha hid
  have hm := updateAssetStatus_mem db job.asset_id AssetStatus.QUARANTINED _ a ha hid
  exact ⟨hm.1, hm.2.1 _ rfl, hm.2.2.2.2 _ rfl, hm.2.2.1 _ rfl, hm.2.2.2.1 _ rfl⟩

/-- Claim C4 witness: a retryable failure at
`attempt = MAX_RETRY_ATTEMPTS - 1` is parked in the DLQ. -/
theorem c4_exhausted_or_terminal_goes_to_dlq_witness :
    (isRetryableError "connection timeout" = false ∨
      MAX_RETRY_ATTEMPTS ≤ c4Job.attempt + 1) ∧
    ((handleJobError c1db LocalQueue.empty c4Job "connection timeout" "J1"
      (1 / 2)).2.dlq.any
      (fun e => e.dlq_job_id == "dlq_" ++ c4Job.job_id)) = true :=
  ⟨Or.inr (by decide),
   (c4_exhausted_or_terminal_goes_to_dlq c1db LocalQueue.empty c4Job
      "connection timeout" "J1" (1 / 2) (Or.inr (by decide))).1⟩

/-- Claim C7 (counterexample).  The claim says the asset mutation and the
soft-deletes run in a single transaction.  The handler issues them as
three separate awaited calls with no transaction, so the state after
`tombstoneAsset` alone — asset tombstoned with status DELETED while its
`v1` segment is still ACTIVE — is observable, and differs from both the
initial and final states. -/
theorem c7_counterexample_intermediate_state_observable :
    (handleObjectRemovedTrace c2db "media" "a.wav").length = 4 ∧
    ((handleObjectRemovedTrace c2db "media" "a.wav").getD 1 DBState.empty).assets.map
      (fun a => (a.tombstone, a.status)) = [(true, AssetStatus.DELETED)] ∧
    ((handleObjectRemovedTrace c2db "media" "a.wav").getD 1 DBState.empty).segments.map
      (fun s => s.visibility) = [Visibility.ACTIVE, Visibility.STAGING] ∧
    (handleObjectRemovedTrace c2db "media" "a.wav").getD 1 DBState.empty ≠ c2db ∧
    (handleObjectRemovedTrace c2db "media" "a.wav").getD 1 DBState.empty ≠
      handleObjectRemoved c2db "media" "a.wav" := by
  with_unfolding_all decide

/-- Claim C7 (amended): `handleObjectRemoved` on a missing key succeeds
with no state change; on an existing asset its three sequential
statements (no enclosing transaction) leave the asset tombstoned with
status DELETED and a null current version, and every segment and
embedding of the asset SOFT_DELETED. -/
theorem c7_amended_sequential_tombstone (db : DBState) (bucket key : String) :
    (getAssetByKey db bucket key = none → handleObjectRemoved db bucket key = db) ∧
    (∀ asset, getAssetByKey db bucket key = some asset →
      (∀ a ∈ (handleObjectRemoved db bucket key).assets, a.asset_id = asset.asset_id →
        a.tombstone = true ∧ a.status = AssetStatus.DELETED ∧
        a.current_version_id = none) ∧
      (∀ s ∈ (handleObjectRemoved db bucket key).segments, s.asset_id = asset.asset_id →
        s.visibility = Visibility.SOFT_DELETED) ∧
      (∀ e ∈ (handleObjectRemoved db bucket key).embeddings, e.asset_id = asset.asset_id →
        e.visibility = Visibility.SOFT_DELETED)) := by
  constructor
  · intro h
    simp [handleObjectRemoved, h]
  · intro asset h
    have hfin : handleObjectRemoved db bucket key =
        softDeleteEmbeddings
          (softDeleteSegments (tombstoneAsset db asset.asset_id) asset.asset_id)
          asset.asset_id := by
      simp [handleObjectRemoved, h]
    refine ⟨?_, ?_, ?_⟩
    · intro a ha hid
      rw [hfin] at ha
      have ha' : a ∈ (tombstoneAsset db asset.asset_id).assets := ha
      exact tombstoneAsset_mem db asset.asset_id a ha' hid
    · intro s hs hid
      rw [hfin] at hs
      have hs' : s ∈ (softDeleteSegments (tombstoneAsset db asset.asset_id)
          asset.asset_id).segments := hs
      exact softDeleteSegments_mem _ asset.asset_id s hs' hid
    · intro e he hid
      rw [hfin] at he
      exact softDeleteEmbeddings_mem _ asset.asset_id e he hid

/-- Claim C7 witness: the concrete removal of `media/a.wav`. -/
theorem c7_amended_sequential_tombstone_witness :
    getAssetByKey c2db "media" "a.wav" = some sampleAssetCurrentV1 ∧
    (∀ s ∈ (handleObjectRemoved c2db "media" "a.wav").segments,
      s.asset_id = sampleAssetCurrentV1.asset_id →
      s.visibility = Visibility.SOFT_DELETED) :=
  ⟨by with_unfolding_all decide,
   fun s hs hid =>
    (((c7_amended_sequential_tombstone c2db "media" "a.wav").2
      sampleAssetCurrentV1 (by with_unfolding_all decide)).2.1) s hs hid⟩

/-- Claim C8: `handleObjectCreated` is a silent no-op when the key's
extension (the code's `split('.').pop()`, lower-cased) is not a supported
media format, and likewise when the asset exists and a version with the
computed version id already exists. -/
theorem c8_ingest_noops (db : DBState) (q : LocalQueue) (bucket key : String)
    (etagOpt : Option String) (sizeOpt : Option Nat) (meta : ObjectMetadata)
    (aid lid jid : String) (now : Nat) (engine : String) :
    (isSupportedMediaFormat key = false →
      handleObjectCreated db q bucket key etagOpt sizeOpt meta aid lid jid now engine =
        Except.ok (db, q)) ∧
    (∀ asset, getAssetByKey db bucket key = some asset →
      (getVersion db (computeVersionId (etagOpt.getD meta.etag) (sizeOpt.getD meta.size)
        meta.lastModifiedMs now)).isSome = true →
      handleObjectCreated db q bucket key etagOpt sizeOpt meta aid lid jid now engine =
        Except.ok (db, q)) := by
  constructor
  · intro h
    simp [handleObjectCreated, h]
  · intro asset hasset hver
    by_cases hs : isSupportedMediaFormat key = false
    · simp [handleObjectCreated, hs]
    · have hs' : isSupportedMediaFormat key = true := by
        cases hv : isSupportedMediaFormat key with
        | true => rfl
        | false => exact absurd hv hs
      simp [handleObjectCreated, hs', hasset, hver]

/-- Claim C8 witness: `notes.txt` is skipped; re-delivering `hello.wav`
whose computed version already exists is a no-op. -/
theorem c8_ingest_noops_witness :
    isSupportedMediaFormat "notes.txt" = false ∧
    handleObjectCreated c8db LocalQueue.empty "media" "notes.txt" (some "E1")
      (some 1024) c8Meta "A9" "L9" "J9" 0 "stub" = Except.ok (c8db, LocalQueue.empty) ∧
    getAssetByKey c8db "media" "hello.wav" = some c8Asset ∧
    (getVersion c8db (computeVersionId "E1" 1024 1700000000000 0)).isSome = true ∧
    handleObjectCreated c8db LocalQueue.empty "media" "hello.wav" (some "E1")
      (some 1024) c8Meta "A9" "L9" "J9" 0 "stub" = Except.ok (c8db, LocalQueue.empty) :=
  ⟨by decide,
   (c8_ingest_noops c8db LocalQueue.empty "media" "notes.txt" (some "E1") (some 1024)
      c8Meta "A9" "L9" "J9" 0 "stub").1 (by decide),
   by with_unfolding_all decide,
   by with_unfolding_all decide,
   (c8_ingest_noops c8db LocalQueue.empty "media" "hello.wav" (some "E1") (some 1024)
      c8Meta "A9" "L9" "J9" 0 "stub").2 c8Asset (by with_unfolding_all decide)
      (by with_unfolding_all decide)⟩

/-- Claim C10: `retryAsset` throws (mutating nothing) unless the asset
exists, is QUARANTINED and has a current version; on success it resets
the asset to PENDING_RETRY with triage state and last error cleared and
attempt 0, and enqueues a fresh job for the current version with attempt
0 and a freshly time-suffixed idempotency key. -/
theorem c10_retryAsset_spec (db : DBState) (q : LocalQueue) (assetId : String)
    (engineOverride : Option String) (jid : String) (now : Nat) :
    (getAsset db assetId = none →
      retryAsset db q assetId engineOverride jid now =
        Except.error TriageError.notFound) ∧
    (∀ asset, getAsset db assetId = some asset →
      asset.status ≠ AssetStatus.QUARANTINED →
      retryAsset db q assetId engineOverride jid now =
        Except.error TriageError.notQuarantined) ∧
    (∀ asset, getAsset db assetId = some asset →
      asset.status = AssetStatus.QUARANTINED →
      asset.current_version_id = none →
      retryAsset db q assetId engineOverride jid now =
        Except.error TriageError.noVersion) ∧
    (∀ asset v, getAsset db assetId = some asset →
      asset.status = AssetStatus.QUARANTINED →
      asset.current_version_id = some v →
      (q.main.any (fun p => p.1.job_id == jid)) = false →
      ∃ db' q', retryAsset db q assetId engineOverride jid now = Except.ok (db', q') ∧
        q'.main.length = q.main.length + 1 ∧
        (∃ p ∈ q'.main, p.1.job_id = jid ∧ p.1.attempt = 0 ∧ p.1.version_id = v ∧
          p.1.idempotency_key = assetId ++ ":" ++ v ++ ":retry:" ++ toString now) ∧
        (∀ a ∈ db'.assets, a.asset_id = assetId →
          a.status = AssetStatus.PENDING_RETRY ∧ a.triage_state = none ∧
          a.last_error = none ∧ a.attempt = 0)) := by
  refine ⟨?_, ?_, ?_, ?_⟩
  · intro h
    simp [retryAsset, h]
  · intro asset hasset hst
    simp [retryAsset, hasset, hst]
  · intro asset hasset hst hcur
    simp [retryAsset, hasset, hst, hcur]
  · intro asset v hasset hst hcur hfresh
    refine ⟨updateAssetStatus db assetId AssetStatus.PENDING_RETRY
        { triageState := some none, lastError := some none,
          attempt := some 0, recommendedAction := none },
      LocalQueue.enqueueJob q
        { job_id := jid, asset_id := assetId, version_id := v,
          engine_policy :=
            { DEFAULT_ENGINE_POLICY with
                engine := match engineOverride with
                  | some e => jsToUpper e
                  | none => asset.transcription_engine },
          attempt := 0,
          idempotency_key := assetId ++ ":" ++ v ++ ":retry:" ++ toString now },
      ?_, ?_, ?_, ?_⟩
    · simp [retryAsset, hasset, hst, hcur]
    · simp [LocalQueue.enqueueJob, hfresh]
    · refine ⟨({ job_id := jid,
                 asset_id := assetId,
                 version_id := v,
                 engine_policy :=
                   { DEFAULT_ENGINE_POLICY with
                       engine := match engineOverride with
                         | some e => jsToUpper e
                         | none => asset.transcription_engine },
                 attempt := 0,
                 idempotency_key :=
                   assetId ++ ":" ++ v ++ ":retry:" ++ toString now }, 0),
        ?_, rfl, rfl, rfl, rfl⟩
      simp [LocalQueue.enqueueJob, hfresh]
    · intro a ha hid
      have hm := updateAssetStatus_mem db assetId AssetStatus.PENDING_RETRY _ a ha hid
      exact ⟨hm.1, hm.2.1 _ rfl, hm.2.2.1 _ rfl, hm.2.2.2.1 _ rfl⟩

/-- Claim C10 witness: a quarantined asset with current version `v1`. -/
theorem c10_retryAsset_spec_witness :
    getAsset c10db "A" = some c10Asset ∧
    c10Asset.status = AssetStatus.QUARANTINED ∧
    c10Asset.current_version_id = some "v1" ∧
    (LocalQueue.empty.main.any (fun p => p.1.job_id == "J9")) = false ∧
    (∃ db' q', retryAsset c10db LocalQueue.empty "A" none "J9" 77 =
        Except.ok (db', q') ∧
      q'.main.length = LocalQueue.empty.main.length + 1 ∧
      (∃ p ∈ q'.main, p.1.job_id = "J9" ∧ p.1.attempt = 0 ∧ p.1.version_id = "v1" ∧
        p.1.idempotency_key = "A" ++ ":" ++ "v1" ++ ":retry:" ++ toString 77) ∧
      (∀ a ∈ db'.assets, a.asset_id = "A" →
        a.status = AssetStatus.PENDING_RETRY ∧ a.triage_state = none ∧
        a.last_error = none ∧ a.attempt = 0)) :=
  ⟨by decide, by decide, by decide, by decide,
   (c10_retryAsset_spec c10db LocalQueue.empty "A" none "J9" 77).2.2.2 c10Asset "v1"
     (by decide) (by decide) (by decide) (by decide)⟩

/-- Claim C6 (counterexample).  The claim says a segment present in only
one source keeps its originating match type and ties are broken by
higher raw semantic score.  With one keyword-only hit (segment `a`) and
one semantic-only hit (segment `b`, raw semantic score 1) and
`Wk = Ws = 1/2`, both fuse to score `1/2`; the output keeps the keyword
hit first (stable insertion order, not the semantic tie-break) and labels
the semantic-only hit `hybrid`, not `semantic`. -/
theorem c6_counterexample_semantic_only_labelled_hybrid :
    (vastSearchHybrid (1 / 2) (1 / 2) 100 [c6KwHit] [c6SemHit]).map
      (fun h => (h.segment_id, h.match_type, h.score)) =
      [("a", MatchType.keyword, 1 / 2), ("b", MatchType.hybrid, 1 / 2)] ∧
    ([c6KwHit].all (fun h => !(h.segment_id == c6SemHit.segment_id))) = true ∧
    c6SemHit.match_type = MatchType.semantic ∧
    c6SemHit.score = 1 := by
  with_unfolding_all decide

/-- Claim C6 (amended): for duplicate-free inputs the VAST hybrid search
fuses per segment id with combined score `Wk · 1 + Ws · S` (the keyword
score is flattened to 1), keeps the `keyword` label for keyword-only
segments, labels both dual-source and semantic-only segments `hybrid`,
and returns the fused hits stably sorted by combined score descending
(ties keep keyword-first insertion order), truncated to the limit. -/
theorem c6_amended_hybrid_fusion (kW sW : ℚ) (lim : Nat) (kw sem : List VASTHit)
    (hkw : kw.Pairwise (fun a b => a.segment_id ≠ b.segment_id))
    (hsem : sem.Pairwise (fun a b => a.segment_id ≠ b.segment_id)) :
    hybridFuse kW sW kw sem = fuseSpec kW sW kw sem ∧
    vastSearchHybrid kW sW lim kw sem =
      (List.insertionSort (descBy (fun h => h.score)) (fuseSpec kW sW kw sem)).take
        (if lim = 0 then 100 else lim) ∧
    (vastSearchHybrid kW sW lim kw sem).Pairwise (fun a b => b.score ≤ a.score) := by
  have hfe := hybridFuse_eq_fuseSpec kW sW kw sem hkw hsem
  refine ⟨hfe, ?_, ?_⟩
  · unfold vastSearchHybrid
    rw [hfe]
  · unfold vastSearchHybrid
    have hs : List.Sorted (descBy (fun h : VASTHit => h.score))
        (List.insertionSort (descBy (fun h : VASTHit => h.score))
          (hybridFuse kW sW kw sem)) :=
      List.sorted_insertionSort _ _
    exact List.Pairwise.sublist (List.take_sublist _ _) hs

/-- Claim C6 witness: the two-hit fixture. -/
theorem c6_amended_hybrid_fusion_witness :
    ([c6KwHit].Pairwise (fun a b => a.segment_id ≠ b.segment_id)) ∧
    ([c6SemHit].Pairwise (fun a b => a.segment_id ≠ b.segment_id)) ∧
    hybridFuse (1 / 2) (1 / 2) [c6KwHit] [c6SemHit] =
      fuseSpec (1 / 2) (1 / 2) [c6KwHit] [c6SemHit] :=
  ⟨List.pairwise_singleton _ _, List.pairwise_singleton _ _,
   (c6_amended_hybrid_fusion (1 / 2) (1 / 2) 100 [c6KwHit] [c6SemHit]
      (List.pairwise_singleton _ _) (List.pairwise_singleton _ _)).1⟩

end MediaSearch
